import Mathlib

/-!
Shallow embedding of the session / OAuth-state storage layer of
headshotai-server, Redis mode:

* `src/server/auth/session_manager.py`   (`SessionManager`)
* `src/server/auth/state_manager.py`     (`StateManager`)
* `src/crons/session_cleanup/session_cleanup.py` (`SessionCleanup`)

Modelling choices, stated once:

* Timestamps are integers (seconds).  Python mixes `time.time()` floats and
  `int(...)` casts; all comparisons here are exact integer comparisons, and
  the float division `SESSION_SLIDING_SECONDS / 2` in a comparison
  `remaining > S / 2` is rendered as `2 * remaining > S`.
* Redis keys are namespaced by kind (`sess`, `usess`, `state`, `codev`); the
  namespaces are disjoint, so the store is one association-list component
  per kind.  A string key written with ttl `t` at time `w` is readable while
  `now < w + t` (Redis reclaims the key once its deadline is reached).
* A Redis sorted set is a list of `(member, score)` pairs kept ordered by
  score, ties ordered by member bytes, and a sorted-set key exists exactly
  while it is nonempty (Redis removes an emptied zset key itself, so the
  explicit `DEL` calls in the source are no-ops on an emptied key).
* Python dictionary truthiness (`x or d`, `if not x`) is modelled explicitly:
  a missing key or a falsy value (`None`, `0`, `""`) takes the default branch.
* `.lower()` and `.strip()` are modelled on the character list of the string
  (ASCII-faithful, and kernel-computable).
-/

/-- Association-list lookup; the most recent binding is first. -/
def alookup {α : Type} : List (String × α) → String → Option α
  | [], _ => none
  | e :: t, k => if e.1 = k then some e.2 else alookup t k

/-- Remove every binding of key `k`. -/
def adel {α : Type} (l : List (String × α)) (k : String) : List (String × α) :=
  l.filter (fun e => !(e.1 == k))

/-- Bind `k` to `v`, replacing any previous binding. -/
def aset {α : Type} (l : List (String × α)) (k : String) (v : α) : List (String × α) :=
  (k, v) :: adel l k

/-- Python `s.lower()` on the character list of the string. -/
def pyLower (s : String) : String := ⟨s.data.map Char.toLower⟩

/-- Python `s.strip()`: drop leading and trailing whitespace. -/
def pyStrip (s : String) : String :=
  ⟨((s.data.dropWhile Char.isWhitespace).reverse.dropWhile Char.isWhitespace).reverse⟩

/-- Redis zset order: by score ascending, ties by member bytes ascending. -/
def zrel (a b : String × Int) : Prop := a.2 < b.2 ∨ (a.2 = b.2 ∧ a.1.data ≤ b.1.data)

instance : DecidableRel zrel := fun a b =>
  inferInstanceAs (Decidable (a.2 < b.2 ∨ (a.2 = b.2 ∧ a.1.data ≤ b.1.data)))

instance : IsTotal (String × Int) zrel := by
  constructor
  intro a b
  rcases lt_trichotomy a.2 b.2 with h | h | h
  · exact Or.inl (Or.inl h)
  · rcases le_total a.1.data b.1.data with h2 | h2
    · exact Or.inl (Or.inr ⟨h, h2⟩)
    · exact Or.inr (Or.inr ⟨h.symm, h2⟩)
  · exact Or.inr (Or.inl h)

instance : IsTrans (String × Int) zrel := by
  constructor
  intro a b c hab hbc
  rcases hab with h1 | ⟨h1, h1s⟩ <;> rcases hbc with h2 | ⟨h2, h2s⟩
  · exact Or.inl (lt_trans h1 h2)
  · exact Or.inl (h2 ▸ h1)
  · exact Or.inl (h1 ▸ h2)
  · exact Or.inr ⟨h1.trans h2, le_trans h1s h2s⟩

/-- Redis `ZADD key {member: score}`: update-or-insert keeping zset order. -/
def zadd (z : List (String × Int)) (sid : String) (score : Int) : List (String × Int) :=
  List.orderedInsert zrel (sid, score) (z.filter (fun e => !(e.1 == sid)))

/-- Redis `ZREM key members...`. -/
def zremList (z : List (String × Int)) (sids : List String) : List (String × Int) :=
  z.filter (fun e => !(sids.contains e.1))

/-- A stored session record: the fields of the session dict that the
session-manager operations read (`sub`, `exp`, `ts`, `ua`, `ip`, `provider`).
`none` models a missing dictionary key. -/
structure SessData where
  sub : Option String := none
  exp : Option Int := none
  ts : Option Int := none
  ua : Option String := none
  ip : Option String := none
  provider : Option String := none
  deriving Repr, DecidableEq

/-- An OAuth state record (`state_manager.save_state` payload). -/
structure StateData where
  redirect_uri : String
  exp : Int
  provider : String
  deriving Repr, DecidableEq

/-- The shared store, one component per key kind.  String values carry the
absolute deadline `write_time + ttl` after which Redis reclaims the key. -/
structure Store where
  sess : List (String × (SessData × Int)) := []
  usess : List (String × List (String × Int)) := []
  oauthStates : List (String × (StateData × Int)) := []
  codev : List (String × (String × Int)) := []
  deriving Repr, DecidableEq

/-- Read the zset at `k` (absent key = empty). -/
def zsetOf (st : Store) (k : String) : List (String × Int) :=
  (alookup st.usess k).getD []

/-- Write back the zset at `k`; an emptied zset key ceases to exist. -/
def setZ (st : Store) (k : String) (z : List (String × Int)) : Store :=
  if z.isEmpty then { st with usess := adel st.usess k }
  else { st with usess := aset st.usess k z }

/-- Redis `DEL` on a usess key. -/
def delUsess (st : Store) (k : String) : Store :=
  { st with usess := adel st.usess k }

/-- Environment-derived configuration of `session_manager.py`, with the
module defaults (`MAX_USER_SESSIONS=0`, `SESSION_LIST_LIMIT=20`,
`SESSION_SLIDING=1`, `SESSION_SLIDING_SECONDS=3600`,
`SESSION_ABSOLUTE_SECONDS=0`). -/
structure Config where
  max_user_sessions : Nat := 0
  session_list_limit : Nat := 20
  sliding_enabled : Bool := true
  sliding_seconds : Int := 3600
  absolute_seconds : Int := 0
  deriving Repr, DecidableEq

/-- `SESSION_TTL_DEFAULT = 3600`. -/
def SESSION_TTL_DEFAULT : Int := 3600

/-- `STATE_TTL = 600` in `state_manager.py`. -/
def STATE_TTL : Int := 600

namespace SessionManager

/-- `SessionManager.save_session` (Redis branch):
`ttl = max(60, exp - int(time.time())) if exp else SESSION_TTL_DEFAULT`,
then `SET sess:<id> <data> EX ttl`. -/
def save_session (now : Int) (session_id : String) (data : SessData) (exp : Int)
    (st : Store) : Store :=
  let ttl : Int := if exp ≠ 0 then max 60 (exp - now) else SESSION_TTL_DEFAULT
  { st with sess := aset st.sess session_id (data, now + ttl) }

/-- `SessionManager.get_session` (Redis branch): `GET sess:<id>`, `None` once
the key's ttl deadline has been reached. -/
def get_session (now : Int) (session_id : String) (st : Store) : Option SessData :=
  match alookup st.sess session_id with
  | some (d, dl) => if now < dl then some d else none
  | none => none

/-- `SessionManager.delete_session` (Redis branch): `DEL sess:<id>`. -/
def delete_session (session_id : String) (st : Store) : Store :=
  { st with sess := adel st.sess session_id }

/-- `SessionManager.refresh_session_if_needed`: sliding renewal.  Returns the
new expiry (when a rewrite happened), the possibly-updated data dict, and the
possibly-updated store.  `cur_exp = data.get('exp') or int(now + SESSION_TTL_DEFAULT)`
(a stored `0` is falsy), expired sessions are not renewed, the candidate is
`int(now + SESSION_SLIDING_SECONDS)` capped at `data.get('ts', now) +
SESSION_ABSOLUTE_SECONDS` when the ceiling is configured, and the write is
skipped only when `remaining > SESSION_SLIDING_SECONDS / 2` and the candidate
does not exceed the current expiry. -/
def refresh_session_if_needed (cfg : Config) (now : Int) (session_id : String)
    (data : SessData) (st : Store) : Option Int × SessData × Store :=
  if cfg.sliding_enabled = false then (none, data, st)
  else
    let cur_exp : Int :=
      match data.exp with
      | some e => if e = 0 then now + SESSION_TTL_DEFAULT else e
      | none => now + SESSION_TTL_DEFAULT
    if cur_exp ≤ now then (none, data, st)
    else
      let remaining := cur_exp - now
      let cand0 := now + cfg.sliding_seconds
      let cand :=
        if 0 < cfg.absolute_seconds then
          let absolute_deadline := (data.ts.getD now) + cfg.absolute_seconds
          if cand0 > absolute_deadline then absolute_deadline else cand0
        else cand0
      if 2 * remaining > cfg.sliding_seconds ∧ cand ≤ cur_exp then (none, data, st)
      else
        let data2 := { data with exp := some cand }
        (some cand, data2, save_session now session_id data2 cand st)

/-- `SessionManager._user_index_id`: normalized email if truthy, else the
subject; the result is `none` when the chosen value is falsy (callers guard
with `if not idx`). -/
def user_index_id (email sub : Option String) : Option String :=
  let eid := pyStrip (pyLower (email.getD ""))
  if eid ≠ "" then some eid
  else
    match sub with
    | some s => if s ≠ "" then some s else none
    | none => none

/-- `SessionManager.add_session_to_user` (Redis branch): `ZADD usess:<idx>`,
then if `MAX_USER_SESSIONS > 0` and the cardinality exceeds it, fetch the
`over` oldest members, delete each one's session record, and `ZREM` them. -/
def add_session_to_user (cfg : Config) (email sub : Option String)
    (session_id : String) (ts : Int) (st : Store) : Store :=
  match user_index_id email sub with
  | none => st
  | some idx =>
    let st1 := setZ st idx (zadd (zsetOf st idx) session_id ts)
    if 0 < cfg.max_user_sessions then
      let z := zsetOf st1 idx
      if cfg.max_user_sessions < z.length then
        let old := (z.take (z.length - cfg.max_user_sessions)).map Prod.fst
        if old.isEmpty then st1
        else
          let st2 := old.foldl (fun s i => delete_session i s) st1
          setZ st2 idx (zremList (zsetOf st2 idx) old)
      else st1
    else st1

/-- One row of the `list_user_sessions` result. -/
structure SessEntry where
  session_id : String
  created_at : Option Int
  expires_at : Option Int
  expired : Bool
  ua : Option String
  ip : Option String
  provider : String
  deriving Repr, DecidableEq

/-- Build a result row from a live record;
`expired = bool(exp and exp < now)`. -/
def mkEntry (now : Int) (sid : String) (d : SessData) : SessEntry :=
  { session_id := sid
    created_at := d.ts
    expires_at := d.exp
    expired := match d.exp with
               | some e => decide (e ≠ 0) && decide (e < now)
               | none => false
    ua := d.ua
    ip := d.ip
    provider := d.provider.getD "unknown" }

/-- `fetch_idx` inside `list_user_sessions`: the most recent
`SESSION_LIST_RETURN_LIMIT` members of the zset, newest first. -/
def fetch_idx (cfg : Config) (st : Store) (i : String) : List String :=
  let z := zsetOf st i
  if z.length = 0 then []
  else ((z.drop (z.length - cfg.session_list_limit)).reverse).map Prod.fst

/-- The session ids `list_user_sessions` examines: the primary (email) index,
falling back to the legacy subject index when the primary fetch is empty and
the subject is truthy and differs from the index key. -/
def list_fetch_sids (cfg : Config) (st : Store) (idx : String) (sub : Option String) :
    List String :=
  let sids := fetch_idx cfg st idx
  if sids.isEmpty then
    match sub with
    | some s =>
      if s ≠ "" ∧ s ≠ idx then
        let legacy := fetch_idx cfg st s
        if legacy.isEmpty then sids else legacy
      else sids
    | none => sids
  else sids

/-- `SessionManager.list_user_sessions` (Redis branch): resolve each fetched
id against the session store, return rows for the live ones; ids that no
longer resolve are collected as stale and `ZREM`-ed from the primary index
key `usess:<idx>`, the key being dropped when emptied. -/
def list_user_sessions (cfg : Config) (now : Int) (email sub : Option String)
    (st : Store) : List SessEntry × Store :=
  match user_index_id email sub with
  | none => ([], st)
  | some idx =>
    let sids := list_fetch_sids cfg st idx sub
    let result := sids.filterMap (fun sid => (get_session now sid st).map (mkEntry now sid))
    let stale := sids.filter (fun sid => (get_session now sid st).isNone)
    let st2 := if stale.isEmpty then st
               else setZ st idx (zremList (zsetOf st idx) stale)
    (result, st2)

end SessionManager

namespace StateManager

/-- `StateManager.save_state`: `SET state:<tok> EX 600` and
`SET codev:<tok> EX 600` in one pipeline, `exp` recorded in the payload. -/
def save_state (now : Int) (tok redirect verifier provider : String) (st : Store) : Store :=
  { st with
    oauthStates := aset st.oauthStates tok
      ({ redirect_uri := redirect, exp := now + STATE_TTL, provider := provider }, now + STATE_TTL)
    codev := aset st.codev tok (verifier, now + STATE_TTL) }

/-- `StateManager.pop_state`: pipelined `GET`/`GET`/`DEL`/`DEL` of the state
and verifier keys; returns whatever the gets saw and deletes both keys. -/
def pop_state (now : Int) (tok : String) (st : Store) :
    (Option StateData × Option String) × Store :=
  let meta := match alookup st.oauthStates tok with
    | some (d, dl) => if now < dl then some d else none
    | none => none
  let verifier := match alookup st.codev tok with
    | some (v, dl) => if now < dl then some v else none
    | none => none
  ((meta, verifier),
   { st with oauthStates := adel st.oauthStates tok, codev := adel st.codev tok })

end StateManager

namespace SessionCleanup

/-- Redis `EXISTS sess:<sid>` (false once the ttl deadline is reached). -/
def sess_exists (now : Int) (st : Store) (sid : String) : Bool :=
  match alookup st.sess sid with
  | some (_, dl) => decide (now < dl)
  | none => false

/-- The counters of `SessionCleanup.stats`. -/
structure CleanupStats where
  user_sessions_checked : Nat := 0
  user_sessions_cleaned : Nat := 0
  orphaned_sessions_found : Nat := 0
  orphaned_sessions_removed : Nat := 0
  empty_user_sessions_removed : Nat := 0
  total_sessions_checked : Nat := 0
  valid_sessions_found : Nat := 0
  deriving Repr, DecidableEq

/-- The body of the `for user_key in user_session_keys` loop of
`cleanup_orphaned_user_sessions`: classify the key's members as valid or
orphaned via `EXISTS`, and in mutating mode `ZREM` the orphans and `DEL` the
key when no member was valid. -/
def process_user_key (now : Int) (dry_run : Bool) (acc : CleanupStats × Store)
    (ukey : String) : CleanupStats × Store :=
  let stats0 := acc.1
  let st := acc.2
  let stats1 := { stats0 with user_sessions_checked := stats0.user_sessions_checked + 1 }
  let z := zsetOf st ukey
  if z.isEmpty then (stats1, st)
  else
    let session_ids := z.map Prod.fst
    let valid := session_ids.filter (fun sid => sess_exists now st sid)
    let orphaned := session_ids.filter (fun sid => !(sess_exists now st sid))
    let stats2 := { stats1 with
      total_sessions_checked := stats1.total_sessions_checked + session_ids.length
      valid_sessions_found := stats1.valid_sessions_found + valid.length
      orphaned_sessions_found := stats1.orphaned_sessions_found + orphaned.length }
    let p1 : CleanupStats × Store :=
      if orphaned.isEmpty then (stats2, st)
      else if dry_run then (stats2, st)
      else ({ stats2 with
                orphaned_sessions_removed := stats2.orphaned_sessions_removed + orphaned.length },
            setZ st ukey (zremList z orphaned))
    if valid.isEmpty then
      if dry_run then
        ({ p1.1 with user_sessions_cleaned := p1.1.user_sessions_cleaned + 1 }, p1.2)
      else
        ({ p1.1 with
             empty_user_sessions_removed := p1.1.empty_user_sessions_removed + 1
             user_sessions_cleaned := p1.1.user_sessions_cleaned + 1 },
         delUsess p1.2 ukey)
    else if orphaned.isEmpty then p1
    else ({ p1.1 with user_sessions_cleaned := p1.1.user_sessions_cleaned + 1 }, p1.2)

/-- `cleanup_orphaned_user_sessions` with the accumulated stats threaded
explicitly (the method mutates `self.stats`): scan the snapshot of
`usess:*` keys. -/
def cleanup_orphaned_with (now : Int) (dry_run : Bool) (stats : CleanupStats)
    (st : Store) : CleanupStats × Store :=
  (st.usess.map Prod.fst).foldl (process_user_key now dry_run) (stats, st)

/-- `SessionCleanup(dry_run).cleanup_orphaned_user_sessions()` on a fresh
instance (all counters zero). -/
def cleanup_orphaned_user_sessions (now : Int) (dry_run : Bool) (st : Store) :
    CleanupStats × Store :=
  cleanup_orphaned_with now dry_run {} st

/-- `cleanup_expired_sessions` with the stats threaded: collect live `sess`
records whose `ts` (default `0`) is older than
`now - max_age_days*24*3600`; in mutating mode delete them and re-run the
orphan pass on the shared stats. -/
def cleanup_expired_with (now : Int) (max_age_days : Int) (dry_run : Bool)
    (stats : CleanupStats) (st : Store) : CleanupStats × Store :=
  let cutoff := now - max_age_days * 24 * 3600
  let expired := (st.sess.filter
      (fun e => decide (now < e.2.2) && decide ((e.2.1.ts.getD 0) < cutoff))).map Prod.fst
  if expired.isEmpty then (stats, st)
  else if dry_run then (stats, st)
  else
    let st2 := expired.foldl (fun s sid => SessionManager.delete_session sid s) st
    cleanup_orphaned_with now dry_run stats st2

/-- `SessionCleanup(dry_run).cleanup_expired_sessions(max_age_days)` on a
fresh instance. -/
def cleanup_expired_sessions (now : Int) (max_age_days : Int) (dry_run : Bool)
    (st : Store) : CleanupStats × Store :=
  cleanup_expired_with now max_age_days dry_run {} st

end SessionCleanup

/-! Basic lemmas about the store primitives. -/

theorem alookup_aset_self {α : Type} (l : List (String × α)) (k : String) (v : α) :
    alookup (aset l k v) k = some v := by
  simp [aset, alookup]

theorem alookup_adel_self {α : Type} (l : List (String × α)) (k : String) :
    alookup (adel l k) k = none := by
  induction l with
  | nil => rfl
  | cons e t ih =>
    simp only [adel, List.filter_cons] at ih ⊢
    by_cases h : e.1 = k
    · simp [h] at ih ⊢
      exact ih
    · simp [h] at ih ⊢
      simp [alookup, h, ih]

theorem alookup_adel_ne {α : Type} (l : List (String × α)) {k k' : String} (h : k' ≠ k) :
    alookup (adel l k) k' = alookup l k' := by
  induction l with
  | nil => rfl
  | cons e t ih =>
    simp only [adel, List.filter_cons] at ih ⊢
    by_cases he : e.1 = k
    · simp [he] at ih ⊢
      rw [ih]
      have : ¬ e.1 = k' := by rw [he]; exact fun hh => h hh.symm
      simp [alookup, this]
    · simp [he] at ih ⊢
      simp [alookup, ih]

theorem alookup_aset_ne {α : Type} (l : List (String × α)) {k k' : String} (v : α)
    (h : k' ≠ k) : alookup (aset l k v) k' = alookup l k' := by
  have hne : ¬ (k = k') := fun hh => h hh.symm
  simp only [aset, alookup, hne, if_false]
  exact alookup_adel_ne l h

theorem zsetOf_setZ_self (st : Store) (k : String) (z : List (String × Int)) :
    zsetOf (setZ st k z) k = z := by
  unfold zsetOf setZ
  by_cases h : z.isEmpty
  · simp [h, alookup_adel_self]
    exact List.isEmpty_iff.mp h
  · simp [h, alookup_aset_self]

theorem zsetOf_setZ_ne (st : Store) {k k' : String} (z : List (String × Int))
    (h : k' ≠ k) : zsetOf (setZ st k z) k' = zsetOf st k' := by
  unfold zsetOf setZ
  by_cases he : z.isEmpty
  · simp [he, alookup_adel_ne _ h]
  · simp [he, alookup_aset_ne _ _ h]

theorem setZ_sess (st : Store) (k : String) (z : List (String × Int)) :
    (setZ st k z).sess = st.sess := by
  unfold setZ
  split <;> rfl

theorem delUsess_sess (st : Store) (k : String) : (delUsess st k).sess = st.sess := rfl

theorem zsetOf_delUsess_self (st : Store) (k : String) : zsetOf (delUsess st k) k = [] := by
  simp [zsetOf, delUsess, alookup_adel_self]

theorem zsetOf_delUsess_ne (st : Store) {k k' : String} (h : k' ≠ k) :
    zsetOf (delUsess st k) k' = zsetOf st k' := by
  simp [zsetOf, delUsess, alookup_adel_ne _ h]

theorem delete_session_usess (sid : String) (st : Store) :
    (SessionManager.delete_session sid st).usess = st.usess := rfl

theorem get_session_save_self (now t : Int) (sid : String) (d : SessData) (exp : Int)
    (st : Store) (hexp : exp ≠ 0) :
    SessionManager.get_session t sid (SessionManager.save_session now sid d exp st) =
      if t < now + max 60 (exp - now) then some d else none := by
  unfold SessionManager.save_session SessionManager.get_session
  simp [hexp, alookup_aset_self]

/-! Claim C1. -/

/-- Claim C1 (code-bug evidence): with the default configuration (sliding
window 3600 s, no absolute ceiling) and a session whose remaining life is
2000 s — strictly more than half the window (1800 s) —
`refresh_session_if_needed` still rewrites the stored expiry to
`now + window = 4600` and returns it, because the skip branch additionally
requires the candidate not to exceed the current expiry.  The claim (and the
function's own docstring strategy line) say the expiry must be left unchanged
and `none` returned whenever remaining life exceeds half the window. -/
theorem C1_refresh_slides_despite_long_remaining_life :
    2 * ((3000 : Int) - 1000) > (3600 : Int) ∧
    (SessionManager.refresh_session_if_needed {} 1000 "sid1"
        { exp := some 3000, ts := some 500 } {}).1 = some 4600 ∧
    SessionManager.get_session 1100 "sid1"
        (SessionManager.refresh_session_if_needed {} 1000 "sid1"
          { exp := some 3000, ts := some 500 } {}).2.2
      = some { exp := some 4600, ts := some 500 } := by
  refine ⟨by decide, by decide, by decide⟩

/-! Claim C6. -/

/-- Claim C6 (counterexample): a session created at time 1000 with ttl
`T = 30` (stored expiry 1030) is still returned by `get_session` at time
1031, strictly after creation + T, because `save_session` clamps the written
ttl to a minimum of 60 seconds. -/
theorem C6_counterexample :
    (1000 : Int) + 30 < 1031 ∧
    SessionManager.get_session 1031 "sid1"
      (SessionManager.save_session 1000 "sid1" { ts := some 1000 } 1030 {}) =
      some { ts := some 1000 } := by
  refine ⟨by decide, by decide⟩

/-- Claim C6 (amended): for a session saved at creation time `c > 0` with
expiry `c + T`, `T ≥ 0`, and not touched afterwards, `get_session` returns
the record at `c + T / 2`, and returns absent at any time strictly after
`c + max T 60` — the stored ttl is clamped to at least 60 seconds, so for
`T ≥ 60` the absence bound is exactly `c + T` as the claim states. -/
theorem C6_get_session_lifecycle (c T t : Int) (sid : String) (d : SessData)
    (st : Store) (hc : 0 < c) (hT : 0 ≤ T) :
    SessionManager.get_session (c + T / 2) sid
        (SessionManager.save_session c sid d (c + T) st) = some d ∧
    (c + max T 60 < t →
      SessionManager.get_session t sid
        (SessionManager.save_session c sid d (c + T) st) = none) := by
  have hexp : c + T ≠ 0 := by omega
  have harg : c + T - c = T := by ring
  constructor
  · rw [get_session_save_self _ _ _ _ _ _ hexp, harg, if_pos]
    rcases le_total T 60 with h | h
    · rw [max_eq_left h]
      omega
    · rw [max_eq_right h]
      omega
  · intro ht
    rw [get_session_save_self _ _ _ _ _ _ hexp, harg, if_neg]
    rcases le_total T 60 with h | h
    · rw [max_eq_left h]
      rw [max_eq_right h] at ht
      omega
    · rw [max_eq_right h]
      rw [max_eq_left h] at ht
      omega

/-- Claim C6 witness: the amended statement at `c = 1000`, `T = 3600`. -/
theorem C6_get_session_lifecycle_witness :
    SessionManager.get_session (1000 + 3600 / 2) "sid1"
        (SessionManager.save_session 1000 "sid1" {} (1000 + 3600) {}) = some {} ∧
    SessionManager.get_session 4601 "sid1"
        (SessionManager.save_session 1000 "sid1" {} (1000 + 3600) {}) = none := by
  have h := C6_get_session_lifecycle 1000 3600 4601 "sid1" {} {} (by decide) (by decide)
  exact ⟨h.1, h.2 (by decide)⟩

/-! Claim C9. -/

/-- Claim C9 (counterexample): a record whose stored expiry field is the
falsy value `0` — which is "at or before the current time" — is not treated
as expired: with a 7200 s sliding window the code defaults the current expiry
to `now + SESSION_TTL_DEFAULT`, slides, rewrites the store and returns
`now + 7200`, not `none`. -/
theorem C9_counterexample :
    (0 : Int) ≤ 1000 ∧
    (SessionManager.refresh_session_if_needed { sliding_seconds := 7200 } 1000 "s"
        { exp := some 0 } {}).1 = some 8200 := by
  refine ⟨by decide, by decide⟩

/-- Claim C9 (amended): for every configuration, session id and record whose
stored expiry is nonzero (Python treats a stored `0` as absent) and at or
before the current time, `refresh_session_if_needed` returns `none` and
performs no write: the data dict and the store are returned unchanged. -/
theorem C9_refresh_expired_no_write (cfg : Config) (now : Int) (sid : String)
    (data : SessData) (st : Store) (e : Int)
    (he : data.exp = some e) (h0 : e ≠ 0) (hle : e ≤ now) :
    SessionManager.refresh_session_if_needed cfg now sid data st = (none, data, st) := by
  unfold SessionManager.refresh_session_if_needed
  cases hs : cfg.sliding_enabled
  · simp
  · simp only [Bool.true_eq_false, if_false, he, h0, if_neg, hle, if_pos]

/-- Claim C9 witness: the amended statement at a concrete expired record. -/
theorem C9_refresh_expired_no_write_witness :
    SessionManager.refresh_session_if_needed {} 1000 "s" { exp := some 500 } {} =
      (none, { exp := some 500 }, {}) :=
  C9_refresh_expired_no_write {} 1000 "s" { exp := some 500 } {} 500 rfl
    (by decide) (by decide)

/-! Claim C4. -/

/-- Claim C4: a state token saved via `save_state` is redeemed by `pop_state`
exactly once: a first pop inside the TTL window returns the stored metadata
and verifier, and a second pop of the same token — at any later (or any)
time — returns absent for both components, because the first pop deleted
both keys. -/
theorem C4_pop_state_single_use (st : Store) (s t1 t2 : Int) (tok r v p : String)
    (h1 : t1 < s + STATE_TTL) :
    (StateManager.pop_state t1 tok (StateManager.save_state s tok r v p st)).1 =
      (some { redirect_uri := r, exp := s + STATE_TTL, provider := p }, some v) ∧
    (StateManager.pop_state t2 tok
        (StateManager.pop_state t1 tok (StateManager.save_state s tok r v p st)).2).1 =
      (none, none) := by
  unfold StateManager.save_state StateManager.pop_state
  simp [alookup_aset_self, alookup_adel_self, h1]

/-- Claim C4 witness: the single-use property at a concrete token, both pops
inside the TTL window. -/
theorem C4_pop_state_single_use_witness :
    (StateManager.pop_state 10 "tok" (StateManager.save_state 0 "tok" "r" "v" "google" {})).1 =
      (some { redirect_uri := "r", exp := 600, provider := "google" }, some "v") ∧
    (StateManager.pop_state 20 "tok"
        (StateManager.pop_state 10 "tok"
          (StateManager.save_state 0 "tok" "r" "v" "google" {})).2).1 =
      (none, none) :=
  C4_pop_state_single_use {} 0 10 20 "tok" "r" "v" "google" (by decide)

/-! Claim C5. -/

/-- Claim C5: a token whose record has reached its expiry and a token that
was never saved are indistinguishable to `pop_state`: both yield absent
metadata and absent verifier. -/
theorem C5_pop_state_expired_eq_unknown (st : Store) (s t : Int)
    (tok unknown_tok r v p : String)
    (hexp : s + STATE_TTL ≤ t)
    (hu1 : alookup st.oauthStates unknown_tok = none)
    (hu2 : alookup st.codev unknown_tok = none) :
    (StateManager.pop_state t tok (StateManager.save_state s tok r v p st)).1 =
      (none, none) ∧
    (StateManager.pop_state t unknown_tok st).1 = (none, none) := by
  have hlt : ¬ (t < s + STATE_TTL) := not_lt.mpr hexp
  unfold StateManager.save_state StateManager.pop_state
  simp [alookup_aset_self, hlt, hu1, hu2]

/-- Claim C5 witness: a token saved at time 0 and popped at time 700 (past
the 600 s TTL) and a never-saved token both yield `(none, none)`. -/
theorem C5_pop_state_expired_eq_unknown_witness :
    (StateManager.pop_state 700 "tok"
        (StateManager.save_state 0 "tok" "r" "v" "google" {})).1 = (none, none) ∧
    (StateManager.pop_state 700 "other" ({} : Store)).1 = (none, none) :=
  C5_pop_state_expired_eq_unknown {} 0 700 "tok" "other" "r" "v" "google"
    (by decide) rfl rfl

/-! Lemmas about `zadd`. -/

theorem filter_ne_sid_eq_self (z : List (String × Int)) (sid : String)
    (h : sid ∉ z.map Prod.fst) : z.filter (fun e => !(e.1 == sid)) = z := by
  apply List.filter_eq_self.mpr
  intro e he
  have hne : e.1 ≠ sid := fun hh => h (List.mem_map.mpr ⟨e, he, hh⟩)
  simp [hne]

theorem mem_fst_zadd_self (z : List (String × Int)) (sid : String) (score : Int) :
    sid ∈ (zadd z sid score).map Prod.fst := by
  unfold zadd
  exact List.mem_map.mpr ⟨(sid, score), (List.mem_orderedInsert zrel).mpr (Or.inl rfl), rfl⟩

theorem mem_fst_zadd_of_mem (z : List (String × Int)) (sid m : String) (score : Int)
    (hm : m ∈ z.map Prod.fst) : m ∈ (zadd z sid score).map Prod.fst := by
  by_cases h : m = sid
  · subst h
    exact mem_fst_zadd_self z m score
  · rcases List.mem_map.mp hm with ⟨e, he, hfst⟩
    refine List.mem_map.mpr ⟨e, ?_, hfst⟩
    unfold zadd
    refine (List.mem_orderedInsert zrel).mpr (Or.inr ?_)
    refine List.mem_filter.mpr ⟨he, ?_⟩
    have : e.1 ≠ sid := by rw [hfst]; exact h
    simp [this]

theorem zsetOf_delete_session (i k : String) (s : Store) :
    zsetOf (SessionManager.delete_session i s) k = zsetOf s k := rfl

theorem zremList_cons_self (ev : String × Int) (tl : List (String × Int))
    (hevtl : ∀ e ∈ tl, e.1 ≠ ev.1) :
    zremList (ev :: tl) [ev.1] = tl := by
  unfold zremList
  rw [List.filter_cons]
  have hc : (!([ev.1].contains ev.1)) = false := by simp
  rw [hc]
  simp only [Bool.false_eq_true, if_false]
  apply List.filter_eq_self.mpr
  intro e he
  simp [hevtl e he]

/-! Claim C10. -/

/-- Claim C10: when the per-identity session cap `MAX_USER_SESSIONS` is `0`
(the default, meaning unlimited), `add_session_to_user` never evicts: the
session store is untouched and every previously indexed member of every
index is still a member afterwards. -/
theorem C10_no_eviction_when_unlimited (cfg : Config) (email sub : Option String)
    (sid : String) (ts : Int) (st : Store) (h : cfg.max_user_sessions = 0) :
    (SessionManager.add_session_to_user cfg email sub sid ts st).sess = st.sess ∧
    ∀ k m, m ∈ (zsetOf st k).map Prod.fst →
      m ∈ (zsetOf (SessionManager.add_session_to_user cfg email sub sid ts st) k).map
        Prod.fst := by
  cases hidx : SessionManager.user_index_id email sub with
  | none =>
    have hred : SessionManager.add_session_to_user cfg email sub sid ts st = st := by
      unfold SessionManager.add_session_to_user
      rw [hidx]
    rw [hred]
    exact ⟨rfl, fun k m hm => hm⟩
  | some idx =>
    have hred : SessionManager.add_session_to_user cfg email sub sid ts st =
        setZ st idx (zadd (zsetOf st idx) sid ts) := by
      unfold SessionManager.add_session_to_user
      rw [hidx]
      dsimp only
      rw [h, if_neg (lt_irrefl 0)]
    rw [hred]
    constructor
    · exact setZ_sess st idx _
    · intro k m hm
      by_cases hk : k = idx
      · subst hk
        rw [zsetOf_setZ_self]
        exact mem_fst_zadd_of_mem _ _ _ _ hm
      · rw [zsetOf_setZ_ne _ _ hk]
        exact hm

/-- Store used to instantiate the C10 witness. -/
def stC10 : Store := { usess := [("u", [("m1", 5)])] }

/-- Claim C10 witness: registering a second session under the default
(unlimited) configuration keeps the first member and the session store. -/
theorem C10_no_eviction_when_unlimited_witness :
    (SessionManager.add_session_to_user {} none (some "u") "m2" 9 stC10).sess = stC10.sess ∧
    "m1" ∈ (zsetOf (SessionManager.add_session_to_user {} none (some "u") "m2" 9 stC10)
        "u").map Prod.fst := by
  have h := C10_no_eviction_when_unlimited {} none (some "u") "m2" 9 stC10 rfl
  exact ⟨h.1, h.2 "u" "m1" (by decide)⟩

/-! Claim C3. -/

/-- Reduction of `add_session_to_user` in the eviction case: with a positive
cap, a post-`ZADD` zset `ev :: tl` of cardinality cap + 1 whose later members
have ids different from `ev`'s, the operation deletes `ev`'s session record
and leaves the index at `tl`. -/
theorem add_session_eviction_eq (cfg : Config) (email sub : Option String)
    (idx sid : String) (ts : Int) (st : Store) (ev : String × Int)
    (tl : List (String × Int))
    (hidx : SessionManager.user_index_id email sub = some idx)
    (hpos : 0 < cfg.max_user_sessions)
    (hz : zadd (zsetOf st idx) sid ts = ev :: tl)
    (hlen : (ev :: tl).length = cfg.max_user_sessions + 1)
    (hevtl : ∀ e ∈ tl, e.1 ≠ ev.1) :
    SessionManager.add_session_to_user cfg email sub sid ts st =
      setZ (SessionManager.delete_session ev.1 (setZ st idx (ev :: tl))) idx tl := by
  unfold SessionManager.add_session_to_user
  rw [hidx]
  dsimp only
  rw [if_pos hpos, hz, zsetOf_setZ_self]
  have h1 : cfg.max_user_sessions < (ev :: tl).length := by rw [hlen]; omega
  rw [if_pos h1]
  have h2 : (ev :: tl).length - cfg.max_user_sessions = 1 := by rw [hlen]; omega
  rw [h2]
  have h3 : (List.take 1 (ev :: tl)).map Prod.fst = [ev.1] := by
    simp
  rw [h3]
  have h4 : ([ev.1] : List String).isEmpty = false := rfl
  rw [h4]
  simp only [Bool.false_eq_true, if_false, List.foldl]
  rw [zsetOf_delete_session, zsetOf_setZ_self, zremList_cons_self ev tl hevtl]

/-- Claim C3: with the per-identity cap configured to `N > 0` and an index
holding exactly `N` members (a well-formed zset: sorted, duplicate-free,
not containing the new id), registering an (N+1)-th session id leaves the
index with exactly the `N` members `tl`, the evicted member `ev` is one with
the oldest creation timestamp among all N+1, and the evicted session's
record is deleted from the session store in the same operation. -/
theorem C3_cap_eviction (cfg : Config) (email sub : Option String) (idx sid : String)
    (ts : Int) (st : Store) (N : Nat) (ev : String × Int) (tl : List (String × Int))
    (hcap : cfg.max_user_sessions = N) (hN : 0 < N)
    (hidx : SessionManager.user_index_id email sub = some idx)
    (hlen : (zsetOf st idx).length = N)
    (hfresh : sid ∉ (zsetOf st idx).map Prod.fst)
    (hnd : ((zsetOf st idx).map Prod.fst).Nodup)
    (hsort : List.Sorted zrel (zsetOf st idx))
    (hz : zadd (zsetOf st idx) sid ts = ev :: tl) :
    zsetOf (SessionManager.add_session_to_user cfg email sub sid ts st) idx = tl ∧
    tl.length = N ∧
    (∀ m ∈ zadd (zsetOf st idx) sid ts, ev.2 ≤ m.2) ∧
    alookup (SessionManager.add_session_to_user cfg email sub sid ts st).sess ev.1 =
      none := by
  have hpos : 0 < cfg.max_user_sessions := by rw [hcap]; exact hN
  have hlen1 : (ev :: tl).length = cfg.max_user_sessions + 1 := by
    rw [← hz]
    unfold zadd
    rw [filter_ne_sid_eq_self _ _ hfresh, List.orderedInsert_length, hlen, hcap]
  have hperm : List.Perm (zadd (zsetOf st idx) sid ts) ((sid, ts) :: zsetOf st idx) := by
    unfold zadd
    rw [filter_ne_sid_eq_self _ _ hfresh]
    exact List.perm_orderedInsert _ _ _
  have hnd1 : ((zadd (zsetOf st idx) sid ts).map Prod.fst).Nodup := by
    rw [(hperm.map Prod.fst).nodup_iff]
    simp only [List.map_cons]
    exact List.nodup_cons.mpr ⟨hfresh, hnd⟩
  have hevtl : ∀ e ∈ tl, e.1 ≠ ev.1 := by
    rw [hz] at hnd1
    simp only [List.map_cons, List.nodup_cons] at hnd1
    intro e he hh
    exact hnd1.1 (List.mem_map.mpr ⟨e, he, hh⟩)
  have hsort1 : List.Sorted zrel (zadd (zsetOf st idx) sid ts) := by
    unfold zadd
    exact List.Sorted.orderedInsert _ _ (List.Pairwise.filter _ hsort)
  have hred := add_session_eviction_eq cfg email sub idx sid ts st ev tl hidx hpos hz
    hlen1 hevtl
  refine ⟨?_, ?_, ?_, ?_⟩
  · rw [hred, zsetOf_setZ_self]
  · have := hlen1
    simp only [List.length_cons, hcap] at this
    omega
  · intro m hm
    rw [hz] at hm hsort1
    rcases List.mem_cons.mp hm with h | h
    · rw [h]
    · rcases (List.sorted_cons.mp hsort1).1 m h with hlt | ⟨heq, _⟩
      · exact le_of_lt hlt
      · exact le_of_eq heq
  · rw [hred, setZ_sess]
    show alookup (adel (setZ st idx (ev :: tl)).sess ev.1) ev.1 = none
    exact alookup_adel_self _ _

/-- Store used to instantiate the C3 witness: one identity `u` with a single
session `old` (cap 1), whose record is live at time 100. -/
def stC3 : Store :=
  { sess := [("old", ({ ts := some 5 }, 9999))], usess := [("u", [("old", 5)])] }

/-- Claim C3 witness: cap `N = 1`, registering a second id `new` evicts the
older member `old`, leaves exactly the one member `new`, and deletes `old`'s
session record. -/
theorem C3_cap_eviction_witness :
    zsetOf (SessionManager.add_session_to_user { max_user_sessions := 1 } none (some "u")
        "new" 10 stC3) "u" = [("new", 10)] ∧
    ([("new", (10 : Int))] : List (String × Int)).length = 1 ∧
    (("old", (5 : Int)).2 ≤ (("old", (5 : Int)) : String × Int).2 ∧
      ("old", (5 : Int)).2 ≤ (("new", (10 : Int)) : String × Int).2) ∧
    alookup (SessionManager.add_session_to_user { max_user_sessions := 1 } none (some "u")
        "new" 10 stC3).sess "old" = none := by
  have h := C3_cap_eviction { max_user_sessions := 1 } none (some "u") "u" "new" 10 stC3 1
    ("old", 5) [("new", 10)] rfl (by decide) (by decide) (by decide) (by decide)
    (by decide) (by decide) (by decide)
  exact ⟨h.1, h.2.1, ⟨h.2.2.1 ("old", 5) (by decide), h.2.2.1 ("new", 10) (by decide)⟩,
    h.2.2.2⟩

/-! Claim C2. -/

/-- Store for the C2 counterexample: the primary (email-keyed) index is
absent, the legacy subject-keyed index `subj1` holds one member `sidX`, and
`sidX` no longer resolves to a session record. -/
def stC2 : Store := { usess := [("subj1", [("sidX", 100)])] }

/-- Claim C2 (counterexample): listing the sessions of the user with email
`user@example.com` and subject `subj1` over `stC2` takes the legacy-index
fallback, identifies the stale member `sidX` and excludes it from the
result, but the removal (`ZREM`) is issued against the primary email key, so
the stale member is NOT removed from the index that contains it — it is
still a member of `usess:subj1` after the call, contradicting the claim
that all such stale members are removed in the same call. -/
theorem C2_counterexample :
    SessionManager.get_session 1000 "sidX" stC2 = none ∧
    (SessionManager.list_user_sessions {} 1000 (some "user@example.com") (some "subj1")
        stC2).1 = [] ∧
    "sidX" ∈ (zsetOf (SessionManager.list_user_sessions {} 1000 (some "user@example.com")
        (some "subj1") stC2).2 "subj1").map Prod.fst := by
  refine ⟨by decide, by decide, by decide⟩

/-- Claim C2 (amended): for every configuration, time and store, with `idx`
the derived index key, `list_user_sessions` (a) returns only members that
resolve to a live session record, (b) removes every examined-and-stale
member from the primary index key `idx` (which is the index the members came
from except in the legacy-fallback case exhibited by the counterexample),
and (c) deletes the primary index key when the removal leaves it empty. -/
theorem C2_list_self_heal (cfg : Config) (now : Int) (email sub : Option String)
    (idx : String) (st : Store)
    (hidx : SessionManager.user_index_id email sub = some idx) :
    (∀ e, e ∈ (SessionManager.list_user_sessions cfg now email sub st).1 →
        ∃ d, SessionManager.get_session now e.session_id st = some d) ∧
    (∀ sid, sid ∈ SessionManager.list_fetch_sids cfg st idx sub →
        SessionManager.get_session now sid st = none →
        sid ∉ (zsetOf (SessionManager.list_user_sessions cfg now email sub st).2 idx).map
          Prod.fst) ∧
    ((SessionManager.list_fetch_sids cfg st idx sub).filter
        (fun sid => (SessionManager.get_session now sid st).isNone) ≠ [] →
      zsetOf (SessionManager.list_user_sessions cfg now email sub st).2 idx = [] →
      alookup (SessionManager.list_user_sessions cfg now email sub st).2.usess idx =
        none) := by
  have hred1 : (SessionManager.list_user_sessions cfg now email sub st).1 =
      (SessionManager.list_fetch_sids cfg st idx sub).filterMap
        (fun sid => (SessionManager.get_session now sid st).map
          (SessionManager.mkEntry now sid)) := by
    unfold SessionManager.list_user_sessions
    rw [hidx]
  have hred2 : (SessionManager.list_user_sessions cfg now email sub st).2 =
      (if ((SessionManager.list_fetch_sids cfg st idx sub).filter
            (fun sid => (SessionManager.get_session now sid st).isNone)).isEmpty then st
       else setZ st idx (zremList (zsetOf st idx)
            ((SessionManager.list_fetch_sids cfg st idx sub).filter
              (fun sid => (SessionManager.get_session now sid st).isNone)))) := by
    unfold SessionManager.list_user_sessions
    rw [hidx]
  refine ⟨?_, ?_, ?_⟩
  · intro e he
    rw [hred1] at he
    rcases List.mem_filterMap.mp he with ⟨sid, hsid, hmap⟩
    cases hget : SessionManager.get_session now sid st with
    | none => rw [hget] at hmap; simp at hmap
    | some d =>
      rw [hget] at hmap
      simp only [Option.map_some'] at hmap
      have hid : e.session_id = sid := by
        rw [← Option.some_inj.mp hmap]
        rfl
      rw [hid]
      exact ⟨d, hget⟩
  · intro sid hsid hnone hmem
    have hstale : sid ∈ (SessionManager.list_fetch_sids cfg st idx sub).filter
        (fun s => (SessionManager.get_session now s st).isNone) :=
      List.mem_filter.mpr ⟨hsid, by simp [hnone]⟩
    have hne : (SessionManager.list_fetch_sids cfg st idx sub).filter
        (fun s => (SessionManager.get_session now s st).isNone) ≠ [] :=
      List.ne_nil_of_mem hstale
    have hemp : ((SessionManager.list_fetch_sids cfg st idx sub).filter
        (fun s => (SessionManager.get_session now s st).isNone)).isEmpty = false := by
      cases hh : ((SessionManager.list_fetch_sids cfg st idx sub).filter
          (fun s => (SessionManager.get_session now s st).isNone)).isEmpty
      · rfl
      · exact absurd (List.isEmpty_iff.mp hh) hne
    rw [hred2, hemp] at hmem
    simp only [Bool.false_eq_true, if_false] at hmem
    rw [zsetOf_setZ_self] at hmem
    rcases List.mem_map.mp hmem with ⟨e, he, hfst⟩
    have hcon := (List.mem_filter.mp he).2
    rw [hfst] at hcon
    simp at hcon
    rcases hcon with h | h
    · exact h hsid
    · exact h hnone
  · intro hne hempty
    have hemp : ((SessionManager.list_fetch_sids cfg st idx sub).filter
        (fun s => (SessionManager.get_session now s st).isNone)).isEmpty = false := by
      cases hh : ((SessionManager.list_fetch_sids cfg st idx sub).filter
          (fun s => (SessionManager.get_session now s st).isNone)).isEmpty
      · rfl
      · exact absurd (List.isEmpty_iff.mp hh) hne
    rw [hred2, hemp] at hempty ⊢
    simp only [Bool.false_eq_true, if_false] at hempty ⊢
    rw [zsetOf_setZ_self] at hempty
    unfold setZ
    rw [hempty]
    simp [alookup_adel_self]

/-- Store for the C2 witness: index `u` holds a stale member `s2` and a live
member `s1` (record present until time 2000). -/
def stC2w : Store :=
  { sess := [("s1", ({ ts := some 10 }, 2000))]
    usess := [("u", [("s2", 5), ("s1", 10)])] }

/-- Claim C2 witness: over `stC2w` at time 1000, every listed entry is live
(`s1` is), and the examined stale member `s2` is gone from the index after
the call. -/
theorem C2_list_self_heal_witness :
    (∃ d, SessionManager.get_session 1000 "s1" stC2w = some d) ∧
    "s2" ∉ (zsetOf (SessionManager.list_user_sessions {} 1000 none (some "u") stC2w).2
        "u").map Prod.fst := by
  have h := C2_list_self_heal {} 1000 none (some "u") "u" stC2w (by decide)
  constructor
  · exact h.1 (SessionManager.mkEntry 1000 "s1" { ts := some 10 }) (by decide)
  · exact h.2.1 "s2" (by decide) (by decide)

/-! Claim C8. -/

theorem process_user_key_dry_store (now : Int) (acc : SessionCleanup.CleanupStats × Store)
    (ukey : String) : (SessionCleanup.process_user_key now true acc ukey).2 = acc.2 := by
  unfold SessionCleanup.process_user_key
  dsimp only
  split_ifs <;> simp_all

theorem cleanup_orphaned_with_dry_store (now : Int) (stats : SessionCleanup.CleanupStats)
    (st : Store) :
    (SessionCleanup.cleanup_orphaned_with now true stats st).2 = st := by
  unfold SessionCleanup.cleanup_orphaned_with
  generalize (st.usess.map Prod.fst) = ks
  induction ks generalizing stats with
  | nil => rfl
  | cons k ks ih =>
    rw [List.foldl_cons]
    have hp : SessionCleanup.process_user_key now true (stats, st) k =
        ((SessionCleanup.process_user_key now true (stats, st) k).1, st) :=
      Prod.ext rfl (process_user_key_dry_store now (stats, st) k)
    rw [hp]
    exact ih _

theorem cleanup_expired_with_dry_store (now max_age_days : Int)
    (stats : SessionCleanup.CleanupStats) (st : Store) :
    (SessionCleanup.cleanup_expired_with now max_age_days true stats st).2 = st := by
  unfold SessionCleanup.cleanup_expired_with
  dsimp only
  split_ifs <;> simp_all

/-- Claim C8: in report-only mode (`dry_run = true`) neither the orphan pass
nor the bounded-age sweep mutates anything: for every starting counters,
time, age threshold and store, the store after each pass is exactly the
store before, so every session record and every index member present before
the run is still present, unchanged, after it. -/
theorem C8_dry_run_no_mutation (now max_age_days : Int)
    (stats : SessionCleanup.CleanupStats) (st : Store) :
    (SessionCleanup.cleanup_orphaned_with now true stats st).2 = st ∧
    (SessionCleanup.cleanup_expired_with now max_age_days true stats st).2 = st ∧
    (SessionCleanup.cleanup_orphaned_user_sessions now true st).2 = st ∧
    (SessionCleanup.cleanup_expired_sessions now max_age_days true st).2 = st :=
  ⟨cleanup_orphaned_with_dry_store now stats st,
   cleanup_expired_with_dry_store now max_age_days stats st,
   cleanup_orphaned_with_dry_store now {} st,
   cleanup_expired_with_dry_store now max_age_days {} st⟩

/-! Claim C7. -/

theorem sess_exists_congr {st2 st : Store} (h : st2.sess = st.sess) (now : Int)
    (sid : String) :
    SessionCleanup.sess_exists now st2 sid = SessionCleanup.sess_exists now st sid := by
  unfold SessionCleanup.sess_exists
  rw [h]

theorem process_user_key_sess (now : Int) (dry : Bool)
    (acc : SessionCleanup.CleanupStats × Store) (ukey : String) :
    (SessionCleanup.process_user_key now dry acc ukey).2.sess = acc.2.sess := by
  unfold SessionCleanup.process_user_key
  dsimp only
  split_ifs <;> simp_all [setZ_sess, delUsess_sess]

theorem process_user_key_usess_ne (now : Int) (dry : Bool)
    (acc : SessionCleanup.CleanupStats × Store) (ukey k : String) (hk : k ≠ ukey) :
    zsetOf (SessionCleanup.process_user_key now dry acc ukey).2 k = zsetOf acc.2 k := by
  unfold SessionCleanup.process_user_key
  dsimp only
  split_ifs <;>
    simp_all [zsetOf_setZ_ne _ _ hk, zsetOf_delUsess_ne _ hk]

theorem process_user_key_clean_self (now : Int)
    (acc : SessionCleanup.CleanupStats × Store) (ukey : String) (m : String × Int)
    (hm : m ∈ zsetOf (SessionCleanup.process_user_key now false acc ukey).2 ukey) :
    SessionCleanup.sess_exists now acc.2 m.1 = true := by
  unfold SessionCleanup.process_user_key at hm
  dsimp only at hm
  by_cases h1 : (zsetOf acc.2 ukey).isEmpty = true
  · rw [if_pos h1] at hm
    rw [List.isEmpty_iff.mp h1] at hm
    exact absurd hm (List.not_mem_nil m)
  · rw [if_neg h1] at hm
    by_cases hv : (((zsetOf acc.2 ukey).map Prod.fst).filter
        (fun sid => SessionCleanup.sess_exists now acc.2 sid)).isEmpty = true
    · rw [if_pos hv] at hm
      simp only [Bool.false_eq_true, if_false] at hm
      rw [zsetOf_delUsess_self] at hm
      exact absurd hm (List.not_mem_nil m)
    · rw [if_neg hv] at hm
      by_cases ho : (((zsetOf acc.2 ukey).map Prod.fst).filter
          (fun sid => !(SessionCleanup.sess_exists now acc.2 sid))).isEmpty = true
      · rw [if_pos ho, if_pos ho] at hm
        have hall := List.filter_eq_nil_iff.mp (List.isEmpty_iff.mp ho)
        have hmem : m.1 ∈ (zsetOf acc.2 ukey).map Prod.fst :=
          List.mem_map.mpr ⟨m, hm, rfl⟩
        have hx := hall m.1 hmem
        simpa using hx
      · rw [if_neg ho, if_neg ho] at hm
        simp only [Bool.false_eq_true, if_false] at hm
        rw [zsetOf_setZ_self] at hm
        simp only [zremList] at hm
        have h3 := (List.mem_filter.mp hm).1
        have h2 := (List.mem_filter.mp hm).2
        by_contra hne
        have hmo : m.1 ∈ ((zsetOf acc.2 ukey).map Prod.fst).filter
            (fun sid => !(SessionCleanup.sess_exists now acc.2 sid)) := by
          refine List.mem_filter.mpr ⟨List.mem_map.mpr ⟨m, h3, rfl⟩, ?_⟩
          simp only [Bool.not_eq_true] at hne
          simp [hne]
        simp [hmo] at h2

theorem process_user_key_clean_noop (now : Int) (dry : Bool)
    (stats : SessionCleanup.CleanupStats) (st : Store) (ukey : String)
    (hclean : ∀ m ∈ zsetOf st ukey, SessionCleanup.sess_exists now st m.1 = true) :
    (SessionCleanup.process_user_key now dry (stats, st) ukey).2 = st ∧
    (SessionCleanup.process_user_key now dry
        (stats, st) ukey).1.orphaned_sessions_found = stats.orphaned_sessions_found := by
  unfold SessionCleanup.process_user_key
  dsimp only
  have horphnil : ((zsetOf st ukey).map Prod.fst).filter
      (fun sid => !(SessionCleanup.sess_exists now st sid)) = [] := by
    apply List.filter_eq_nil_iff.mpr
    intro sid hsid
    rcases List.mem_map.mp hsid with ⟨m, hmz, hfst⟩
    rw [← hfst]
    simp [hclean m hmz]
  have hvfull : ((zsetOf st ukey).map Prod.fst).filter
      (fun sid => SessionCleanup.sess_exists now st sid) = (zsetOf st ukey).map Prod.fst := by
    apply List.filter_eq_self.mpr
    intro sid hsid
    rcases List.mem_map.mp hsid with ⟨m, hmz, hfst⟩
    rw [← hfst]
    exact hclean m hmz
  by_cases h1 : (zsetOf st ukey).isEmpty = true
  · rw [if_pos h1]
    exact ⟨rfl, rfl⟩
  · rw [if_neg h1]
    rw [horphnil, hvfull]
    have hvne : ((zsetOf st ukey).map Prod.fst).isEmpty = false := by
      cases hz : zsetOf st ukey with
      | nil => rw [hz] at h1; exact absurd rfl h1
      | cons a l => rfl
    rw [hvne]
    constructor
    · simp
    · simp

theorem alookup_isSome_mem_keys {α : Type} (l : List (String × α)) (k : String) (v : α)
    (h : alookup l k = some v) : k ∈ l.map Prod.fst := by
  induction l with
  | nil => simp [alookup] at h
  | cons e t ih =>
    by_cases he : e.1 = k
    · exact List.mem_map.mpr ⟨e, List.mem_cons_self e t, he⟩
    · simp only [alookup, he, if_false] at h
      simp only [List.map_cons, List.mem_cons]
      exact Or.inr (ih h)

theorem fold_clean_noop (now : Int) (dry : Bool) (ks : List String)
    (stats : SessionCleanup.CleanupStats) (st : Store)
    (hclean : ∀ k, ∀ m ∈ zsetOf st k, SessionCleanup.sess_exists now st m.1 = true) :
    (ks.foldl (SessionCleanup.process_user_key now dry) (stats, st)).2 = st ∧
    (ks.foldl (SessionCleanup.process_user_key now dry)
        (stats, st)).1.orphaned_sessions_found = stats.orphaned_sessions_found := by
  induction ks generalizing stats with
  | nil => exact ⟨rfl, rfl⟩
  | cons k ks ih =>
    rw [List.foldl_cons]
    have h := process_user_key_clean_noop now dry stats st k (hclean k)
    have hpair : SessionCleanup.process_user_key now dry (stats, st) k =
        ((SessionCleanup.process_user_key now dry (stats, st) k).1, st) :=
      Prod.ext rfl h.1
    rw [hpair]
    obtain ⟨ha, hb⟩ := ih ((SessionCleanup.process_user_key now dry (stats, st) k).1)
    exact ⟨ha, by rw [hb, h.2]⟩

theorem fold_clean_invariant (now : Int) (ks : List String)
    (acc : SessionCleanup.CleanupStats × Store)
    (hinv : ∀ k0, (∀ m ∈ zsetOf acc.2 k0,
      SessionCleanup.sess_exists now acc.2 m.1 = true) ∨ k0 ∈ ks) :
    ∀ k0, ∀ m ∈ zsetOf (ks.foldl (SessionCleanup.process_user_key now false) acc).2 k0,
      SessionCleanup.sess_exists now
        (ks.foldl (SessionCleanup.process_user_key now false) acc).2 m.1 = true := by
  induction ks generalizing acc with
  | nil =>
    intro k0 m hm
    rcases hinv k0 with h | h
    · exact h m hm
    · exact absurd h (List.not_mem_nil k0)
  | cons k ks ih =>
    rw [List.foldl_cons]
    apply ih
    intro k0
    by_cases hk : k0 = k
    · subst hk
      left
      intro m hm
      rw [sess_exists_congr (process_user_key_sess now false acc k0)]
      exact process_user_key_clean_self now acc k0 m hm
    · rcases hinv k0 with hcl | hks
      · left
        intro m hm
        rw [process_user_key_usess_ne now false acc k k0 hk] at hm
        rw [sess_exists_congr (process_user_key_sess now false acc k)]
        exact hcl m hm
      · rcases List.mem_cons.mp hks with he | hts
        · exact absurd he hk
        · exact Or.inr hts

theorem cleanup_orphaned_result_clean (now : Int) (st : Store) :
    ∀ k, ∀ m ∈ zsetOf (SessionCleanup.cleanup_orphaned_user_sessions now false st).2 k,
      SessionCleanup.sess_exists now
        (SessionCleanup.cleanup_orphaned_user_sessions now false st).2 m.1 = true := by
  unfold SessionCleanup.cleanup_orphaned_user_sessions SessionCleanup.cleanup_orphaned_with
  apply fold_clean_invariant
  intro k0
  cases h : alookup st.usess k0 with
  | none =>
    left
    intro m hm
    have : zsetOf st k0 = [] := by simp [zsetOf, h]
    rw [this] at hm
    exact absurd hm (List.not_mem_nil m)
  | some z =>
    right
    exact alookup_isSome_mem_keys st.usess k0 z h

theorem second_run_zero (now : Int) (st1 : Store)
    (hclean : ∀ k, ∀ m ∈ zsetOf st1 k,
      SessionCleanup.sess_exists now st1 m.1 = true) :
    (SessionCleanup.cleanup_orphaned_user_sessions
        now false st1).1.orphaned_sessions_found = 0 := by
  unfold SessionCleanup.cleanup_orphaned_user_sessions SessionCleanup.cleanup_orphaned_with
  exact (fold_clean_noop now false (st1.usess.map Prod.fst) {} st1 hclean).2.trans rfl

/-- Claim C7: running the mutating orphan pass twice in a row (same clock,
no intervening store activity) reports zero orphaned sessions found on the
second run — the first mutating run removed every orphaned index member. -/
theorem C7_cleanup_idempotent (now : Int) (st : Store) :
    (SessionCleanup.cleanup_orphaned_user_sessions now false
        (SessionCleanup.cleanup_orphaned_user_sessions now false
          st).2).1.orphaned_sessions_found = 0 :=
  second_run_zero now _ (cleanup_orphaned_result_clean now st)
